import Mathlib

/-!
# Verification of the scatter-gather coordination layer

A shallow embedding of `src/bin/scatter-gather.js` (the `aggregator` and
`response` exports together with the `callbackArguments` helper), over which
the spec's claims about correlation, aggregation, timeouts, teardown and
failure isolation are settled.

External collaborators that the file `require`s but that are not part of the
core under `src/` (the `defer` deferred-promise module, the
`event-record` codec, the subscription registry) are modelled from the
interface contracts the spec gives for them (§4.1, §4.4, §6); each such
definition carries a doc comment saying so.  Everything else is translated
directly from the source.
-/

namespace ScatterGather

/-- The `Scather*` message attributes attached to every published event
(`attributes` object built at `src/bin/scatter-gather.js:48-53` and
`:201-206`). -/
structure ScatherAttributes where
  ScatherDirection : String
  ScatherFunctionName : String
  ScatherResponseArn : String
  ScatherRequestId : String
deriving DecidableEq, Repr

/-- One decoded record of an inbound transport event: its attributes together
with its message payload (the `{attributes, message}` records produced by
`EventRecord.extractScatherRecords`). -/
structure EventRecordData where
  attributes : ScatherAttributes
  message : String
deriving DecidableEq, Repr

/-- Modelled from the spec: `extractMatchingRecords(rawEvent, predicate)`
(§6) — the `event-record` module is an external collaborator, not under
`src/`.  A raw transport event is modelled as the ordered list of its decoded
records, and extraction filters them by the caller-supplied predicate over
the decoded record. -/
def extractScatherRecords (event : List EventRecordData)
    (p : EventRecordData → Bool) : List EventRecordData :=
  event.filter p

/-- A published event as handed to `EventInterface.fire(PUBLISH, ...)`:
topic, message and attributes (`EventRecord.createPublishEvent`, modelled
from the spec's `publish(topic, payload, attributes)` contract in §6). -/
structure PublishEvent where
  topicArn : String
  message : String
  attributes : ScatherAttributes
deriving DecidableEq, Repr

/-- Modelled from the spec (§4.1): the state of a `defer()` deferred's
promise — pending, fulfilled with a value, or rejected with an error.  The
aggregator's deferred is fulfilled with the result map, so the value slot
holds an association list from responder name to payload. -/
inductive DeferredState where
  | pending
  | fulfilled (value : List (String × String))
  | rejected (err : String)
deriving DecidableEq, Repr

/-- Modelled from the spec (§4.1): `resolve` is a no-op once the handle has
left the pending state — first transition wins. -/
def deferResolve (d : DeferredState) (value : List (String × String)) :
    DeferredState :=
  match d with
  | .pending => .fulfilled value
  | other => other

/-- Modelled from the spec (§4.1): `deferred.promise.isPending()`. -/
def isPending (d : DeferredState) : Bool :=
  match d with
  | .pending => true
  | _ => false

/-- JavaScript object property assignment `m[k] = v` on the `result` object:
overwrite the value in place if the key exists, otherwise append the new
key at the end. -/
def objSet (m : List (String × String)) (k v : String) :
    List (String × String) :=
  match m with
  | [] => [(k, v)]
  | (k0, v0) :: rest =>
      if k0 = k then (k, v) :: rest else (k0, v0) :: objSet rest k v

/-- `missing.indexOf(x)` followed by `missing.splice(index, 1)` when the
index is not `-1`: remove the first occurrence of `x`, if any
(`src/bin/scatter-gather.js:105-106`). -/
def removeFirst (l : List String) (x : String) : List String :=
  match l with
  | [] => []
  | y :: rest => if y = x then rest else y :: removeFirst rest x

/-- The mutable state closed over by one `aggregator(data, callback)` call
(one PendingRequest): the `missing` array, the `result` object, the
`minTimeoutReached` flag and the deferred's state
(`src/bin/scatter-gather.js:54-58`). -/
structure PendingState where
  missing : List String
  result : List (String × String)
  minTimeoutReached : Bool
  deferredState : DeferredState
deriving DecidableEq, Repr

/-- The PendingRequest state right after `aggregator` is invoked:
`missing` is a copy of `config.expects`, `result` is `{}`,
`minTimeoutReached` is false and the deferred is pending
(`src/bin/scatter-gather.js:54-58`). -/
def initPending (expects : List String) : PendingState :=
  { missing := expects
    result := []
    minTimeoutReached := false
    deferredState := .pending }

/-- The body of the `minWait` timer (`src/bin/scatter-gather.js:61-64`):
set `minTimeoutReached`, then resolve with the current result iff nothing
is missing and the promise is still pending. -/
def minTimerFire (s : PendingState) : PendingState :=
  let s1 : PendingState := { s with minTimeoutReached := true }
  if s1.missing.isEmpty && isPending s1.deferredState then
    { s1 with deferredState := deferResolve s1.deferredState s1.result }
  else s1

/-- The body of the `maxWait` timer (`src/bin/scatter-gather.js:67-69`):
resolve with the current result iff the promise is still pending. -/
def maxTimerFire (s : PendingState) : PendingState :=
  if isPending s.deferredState then
    { s with deferredState := deferResolve s.deferredState s.result }
  else s

/-- Processing of one matching record inside the gatherer's `forEach`
(`src/bin/scatter-gather.js:101-112`): remove the sender from `missing`
(ignoring absence) and store the message in `result` under the sender's
name — unconditionally. -/
def gatherRecord (st : PendingState) (record : EventRecordData) :
    PendingState :=
  { st with
      missing := removeFirst st.missing record.attributes.ScatherFunctionName
      result := objSet st.result record.attributes.ScatherFunctionName
        record.message }

/-- The `gatherer(event)` listener of one PendingRequest
(`src/bin/scatter-gather.js:89-118`): exit at once when the deferred is no
longer pending; otherwise extract the records whose direction is
`response` and whose request id matches, process each, and resolve when
nothing is missing and the minimum timeout has passed. -/
def gatherer (requestId : String) (s : PendingState)
    (event : List EventRecordData) : PendingState :=
  if !(isPending s.deferredState) then s
  else
    let records := extractScatherRecords event fun d =>
      d.attributes.ScatherDirection == "response" &&
        d.attributes.ScatherRequestId == requestId
    let s1 := records.foldl gatherRecord s
    if s1.missing.isEmpty && s1.minTimeoutReached then
      { s1 with deferredState := deferResolve s1.deferredState s1.result }
    else s1

/-- The three kinds of event-loop task that can touch one PendingRequest:
its `minWait` timer firing, its `maxWait` timer firing, and the delivery of
an inbound event on the reply topic. -/
inductive Ev where
  | minTimer
  | maxTimer
  | deliver (records : List EventRecordData)
deriving DecidableEq, Repr

/-- One event-loop task applied to the PendingRequest state. -/
def stepPending (requestId : String) (s : PendingState) : Ev → PendingState
  | .minTimer => minTimerFire s
  | .maxTimer => maxTimerFire s
  | .deliver records => gatherer requestId s records

/-- Run a sequence of event-loop tasks against one PendingRequest.  The
JavaScript runtime is single-threaded, so the life of a PendingRequest is
exactly such a sequence. -/
def runPending (requestId : String) (s : PendingState) : List Ev → PendingState
  | [] => s
  | e :: rest => runPending requestId (stepPending requestId s e) rest

/-- An event-loop task together with the time at which it runs.  A timer
armed with delay `d` runs at a time `≥ d`, which the temporal theorems take
as a hypothesis. -/
structure TimedEv where
  time : Nat
  ev : Ev
deriving DecidableEq, Repr

/-! ## Aggregator-level state: the `gatherers` list, `subscribed` flag and
`unsubscribe`

`exports.aggregator` closes over a `gatherers` array, a `subscribed` flag
on the aggregator function, and the subscription of `runGatherers` on the
reply topic.  We model one aggregator's lifecycle as a state machine whose
tasks are: an `invoke` of the aggregator function, the settlement of one
outstanding deferred, the synchronous body of `unsubscribe()`, and the
asynchronous `.then` continuation inside `unsubscribe()` (which can only run
once every promise captured by its `Promise.all` has settled).  Outstanding
requests are identified by the order in which they were pushed onto
`gatherers`. -/

/-- `(l.take finish).drop start` is `Array.prototype.slice(start, finish)`
for in-range indices: it returns a copy of a sub-range and does **not**
mutate the receiver. -/
def jsSlice {α : Type} (l : List α) (start finish : Nat) : List α :=
  (l.take finish).drop start

/-- The cleanup registered at `src/bin/scatter-gather.js:83-86`
(`deferred.promise.finally`): it computes `gatherers.indexOf(active)` and
then `gatherers.slice(index, 1)` — `slice` returns a fresh sub-array and
leaves `gatherers` untouched, so the list that results from the cleanup is
the unchanged input list. -/
def cleanupOnSettle (gatherers : List Nat) (active : Nat) : List Nat :=
  let index := gatherers.indexOf active
  let _removed := jsSlice gatherers index 1
  gatherers

/-- The state closed over by one `exports.aggregator(configuration)` call:
the `subscribed` flag of the returned function, whether `runGatherers` is
still registered on the reply topic, the ids of entries pushed onto
`gatherers` (with `nextId` numbering invocations), which of those deferreds
have settled, counts of published request events and of invokes rejected
for being unsubscribed, and the progress of the single `unsubscribe()`
call (its synchronous body, the snapshot of promises it collected, and its
`.then` continuation). -/
structure AggState where
  subscribed : Bool
  listenerSubscribed : Bool
  nextId : Nat
  gatherersList : List Nat
  settled : List Nat
  publishedRequests : Nat
  rejectedInvokes : Nat
  unsubCalled : Bool
  unsubSnapshot : List Nat
  unsubDone : Bool
deriving DecidableEq, Repr

/-- The aggregator right after `exports.aggregator(configuration)` returns:
`runGatherers` subscribed on the reply topic
(`src/bin/scatter-gather.js:40`), `subscribed = true` (`:141`), no
outstanding requests, and no `unsubscribe()` call yet. -/
def initAgg : AggState :=
  { subscribed := true
    listenerSubscribed := true
    nextId := 0
    gatherersList := []
    settled := []
    publishedRequests := 0
    rejectedInvokes := 0
    unsubCalled := false
    unsubSnapshot := []
    unsubDone := false }

/-- The aggregator-level event-loop tasks for one aggregator. -/
inductive AEv where
  | invoke
  | settle (id : Nat)
  | unsubscribeCall
  | unsubscribeContinue
deriving DecidableEq, Repr

/-- One aggregator-level task:

* `invoke` — `aggregator(data, callback)`
  (`src/bin/scatter-gather.js:43-46, 72, 76-80`): when `subscribed` is
  false, return a rejected promise and publish nothing; otherwise publish
  the request event and push a fresh active entry onto `gatherers`.
* `settle id` — the deferred of outstanding request `id` leaves the pending
  state; its `finally` cleanup (`:83-86`) then runs `cleanupOnSettle`,
  which leaves `gatherers` unchanged because it uses `slice`.
* `unsubscribeCall` — the synchronous body of `unsubscribe()`
  (`:130-133`): snapshot a `.catch(fnUndefined)`-wrapped promise for every
  current `gatherers` entry and hand them to `Promise.all`; note it does
  **not** touch `subscribed`.  (We model a single `unsubscribe()` call, so
  a second call is a no-op here.)
* `unsubscribeContinue` — the `.then` continuation (`:134-137`): it can
  only run once every snapshotted promise has settled, and then sets
  `subscribed = false` and removes `runGatherers` from the registry. -/
def stepAgg (s : AggState) : AEv → AggState
  | .invoke =>
      if !s.subscribed then { s with rejectedInvokes := s.rejectedInvokes + 1 }
      else
        { s with
            publishedRequests := s.publishedRequests + 1
            gatherersList := s.gatherersList ++ [s.nextId]
            nextId := s.nextId + 1 }
  | .settle id =>
      if s.gatherersList.contains id && !(s.settled.contains id) then
        { s with
            settled := s.settled ++ [id]
            gatherersList := cleanupOnSettle s.gatherersList id }
      else s
  | .unsubscribeCall =>
      if s.unsubCalled then s
      else { s with unsubCalled := true, unsubSnapshot := s.gatherersList }
  | .unsubscribeContinue =>
      if s.unsubCalled && !s.unsubDone &&
          s.unsubSnapshot.all (fun id => s.settled.contains id) then
        { s with
            subscribed := false
            listenerSubscribed := false
            unsubDone := true }
      else s

/-- Run a sequence of aggregator-level tasks. -/
def runAgg (s : AggState) : List AEv → AggState
  | [] => s
  | e :: rest => runAgg (stepAgg s e) rest

/-! ## Promise combinators

`unsubscribe()` and `response` both combine already-settled promises with
`Promise.all`, `.catch` and `.then`; these are the semantics of those
combinators on settled outcomes. -/

/-- The settled outcome of a JavaScript promise: fulfilled with a value or
rejected with an error. -/
inductive JsOutcome (α : Type) where
  | fulfilled (value : α)
  | rejected (err : String)
deriving DecidableEq, Repr

/-- `p.catch(fnUndefined)` (`src/bin/scatter-gather.js:132, 253-255`): a
fulfilled outcome passes through; a rejected outcome becomes fulfillment
with `undefined` (modelled as `none`). -/
def catchUndefined {α : Type} : JsOutcome α → JsOutcome (Option α)
  | .fulfilled v => .fulfilled (some v)
  | .rejected _ => .fulfilled none

/-- `Promise.all` over a list of settled promises, in order: rejected with
the first rejection if any, otherwise fulfilled with the list of values. -/
def promiseAll {α : Type} : List (JsOutcome α) → JsOutcome (List α)
  | [] => .fulfilled []
  | .fulfilled v :: rest =>
      match promiseAll rest with
      | .fulfilled vs => .fulfilled (v :: vs)
      | .rejected e => .rejected e
  | .rejected e :: _ => .rejected e

/-! ## Responder: `exports.response` and `callbackArguments` -/

/-- The context object passed to the wrapped responder: its
`functionName`, plus the `scather` attributes that
`src/bin/scatter-gather.js:174-175` copies onto the per-record inner
context (absent on the outer context). -/
structure Ctx where
  functionName : String
  scather : Option ScatherAttributes
deriving DecidableEq, Repr

/-- A character matched by the JavaScript `\s` class (the whitespace forms
that occur in function parameter text). -/
def isWsChar (c : Char) : Bool :=
  c = ' ' || c = '\t' || c = '\n' || c = '\r'

/-- Split a character list at every comma; the comma is consumed
(the splitting half of `args.split(/,\s?/)` at
`src/bin/scatter-gather.js:237`). -/
def splitOnCommaChars : List Char → List (List Char)
  | [] => [[]]
  | c :: rest =>
      if c = ',' then [] :: splitOnCommaChars rest
      else
        match splitOnCommaChars rest with
        | [] => [[c]]
        | piece :: more => (c :: piece) :: more

/-- The `\s?` half of `/,\s?/`: each separator consumes at most one
whitespace character after the comma, so every piece but the first loses
one leading whitespace character if it has one. -/
def dropOneWsChars : List Char → List Char
  | [] => []
  | c :: rest => if isWsChar c then rest else c :: rest

/-- `args.split(/,\s?/)` over the characters of the parameter text. -/
def splitArgsChars (cs : List Char) : List (List Char) :=
  match splitOnCommaChars cs with
  | [] => []
  | first :: rest => first :: rest.map dropOneWsChars

/-- `callbackArguments` (`src/bin/scatter-gather.js:229-240`), applied to
the declared-parameter text that the regex
`/^(?:function\s?)?([\s\S]+?)\s?(?:=>\s?)?\{/` extracts from the function
source (the text between the `function` keyword or nothing and the body's
`{`): strip one pair of surrounding parentheses if present
(`/^\([\s\S]*?\)$/` then `substring(1, length - 1)`), split on `/,\s?/`,
and map the single-empty-argument case to the empty list.  Implemented
over the string's character list. -/
def callbackArguments (argText : String) : List String :=
  let cs := argText.data
  let cs0 :=
    if cs.head? = some '(' ∧ cs.getLast? = some ')' then
      (cs.drop 1).dropLast
    else cs
  let parts := splitArgsChars cs0
  if parts = [[]] then [] else parts.map fun p => String.mk p

/-- A user-supplied handler, modelled as a pure function from the record's
message and the augmented context to either a result or an error: `.error`
stands both for a synchronous `throw` and for a continuation called with a
truthy error, `.ok` for a returned / continuation-supplied result — the
`try`/`catch` blocks at `src/bin/scatter-gather.js:178-196` map all four
onto the same deferred transitions. -/
def Handler : Type := String → Ctx → Except String String

/-- `extractScatherRecords(event, r => r.attributes.ScatherDirection ===
"request")` (`src/bin/scatter-gather.js:164-166`). -/
def requestRecords (event : List EventRecordData) : List EventRecordData :=
  extractScatherRecords event fun r =>
    r.attributes.ScatherDirection == "request"

/-- The inner context built for one record
(`src/bin/scatter-gather.js:174-175`): a copy of the outer context with
`scather` set to the record's attributes. -/
def innerContextFor (ctx : Ctx) (r : EventRecordData) : Ctx :=
  { ctx with scather := some r.attributes }

/-- The settled outcome of one record's internal deferred
(`src/bin/scatter-gather.js:177-196`): fulfilled with the handler's result,
rejected with its error. -/
def recordOutcome (handler : Handler) (ctx : Ctx) (r : EventRecordData) :
    JsOutcome String :=
  match handler r.message (innerContextFor ctx r) with
  | .ok d => .fulfilled d
  | .error e => .rejected e

/-- The reply event published for one successfully handled record
(`src/bin/scatter-gather.js:199-210`): topic is the record's
`ScatherResponseArn`, payload is the handler's result, attributes carry
direction `response`, the responder's `functionName` and the original
correlation id. -/
def replyEventFor (functionName : String) (r : EventRecordData)
    (message : String) : PublishEvent :=
  { topicArn := r.attributes.ScatherResponseArn
    message := message
    attributes :=
      { ScatherDirection := "response"
        ScatherFunctionName := functionName
        ScatherResponseArn := r.attributes.ScatherResponseArn
        ScatherRequestId := r.attributes.ScatherRequestId } }

/-- How the wrapped entry point completes towards its caller
(`src/bin/scatter-gather.js:220-225`): in the callback paradigm the
caller's callback is invoked once with `(error, data)`; in the promise
paradigm the `Promise.all` promise is returned and no callback is ever
invoked. -/
inductive OuterResult where
  | callbackInvoked (err : Option String) (data : Option (List String))
  | futureReturned (outcome : JsOutcome (List String))
deriving DecidableEq, Repr

/-- Everything observable about one call of the wrapped entry point: the
settled outcome of each matched record's internal deferred (in record
order), the reply events published, and the outer completion. -/
structure ResponseOutcome where
  recordOutcomes : List (JsOutcome String)
  published : List PublishEvent
  outer : OuterResult
deriving DecidableEq, Repr

/-- `exports.response(handler)` applied to one inbound call of the wrapped
entry point (`src/bin/scatter-gather.js:152-227`).  `argText` is the
handler's declared-parameter text (fed to `callbackArguments` at `:156` to
fix the calling convention at wrap time); `callbackSupplied` records
whether the caller passed a continuation at call time — the source never
consults it when choosing the paradigm.  The call throws (`Except.error`)
on a missing context or an empty `functionName` (`:161-162`); otherwise it
filters the request-direction records, runs the handler on each with
per-record isolation, publishes a reply for each fulfilled record, and
completes via `Promise.all` in the paradigm fixed at wrap time. -/
def response (argText : String) (handler : Handler)
    (event : List EventRecordData) (context : Option Ctx)
    (callbackSupplied : Bool) : Except String ResponseOutcome :=
  match context with
  | none => .error "Invalid context. Expected an object."
  | some ctx =>
      if ctx.functionName = "" then
        .error "Invalid context functionName. Value must be a non-empty string."
      else
        let handlerTakesCallback := 3 ≤ (callbackArguments argText).length
        let records := requestRecords event
        let outcomes := records.map (recordOutcome handler ctx)
        let published := (records.zip outcomes).filterMap fun p =>
          match p.2 with
          | .fulfilled m => some (replyEventFor ctx.functionName p.1 m)
          | .rejected _ => none
        let batch := promiseAll outcomes
        let outer :=
          if handlerTakesCallback then
            match batch with
            | .fulfilled arr => OuterResult.callbackInvoked none (some arr)
            | .rejected e => OuterResult.callbackInvoked (some e) none
          else OuterResult.futureReturned batch
        let _ := callbackSupplied
        .ok { recordOutcomes := outcomes, published := published
              outer := outer }

/-! ## Helper lemmas about the PendingRequest machine -/

/-- Keys after a JavaScript property assignment: the assigned key or an
existing key. -/
lemma objSet_keys (m : List (String × String)) (k v k0 : String)
    (h : k0 ∈ (objSet m k v).map Prod.fst) :
    k0 = k ∨ k0 ∈ m.map Prod.fst := by
  induction m with
  | nil =>
      simp only [objSet, List.map_cons, List.map_nil, List.mem_singleton] at h
      exact Or.inl h
  | cons p rest ih =>
      obtain ⟨k1, v1⟩ := p
      by_cases hk : k1 = k
      · simp only [objSet, if_pos hk, List.map_cons, List.mem_cons] at h
        rcases h with h | h
        · exact Or.inl h
        · exact Or.inr (by simp [h])
      · simp only [objSet, if_neg hk, List.map_cons, List.mem_cons] at h
        rcases h with h | h
        · exact Or.inr (by simp [h])
        · rcases ih h with h1 | h1
          · exact Or.inl h1
          · exact Or.inr (by simp [h1])

/-- Processing records only touches `missing` and `result`. -/
lemma foldl_gatherRecord_frame (rs : List EventRecordData) :
    ∀ s : PendingState,
      (rs.foldl gatherRecord s).deferredState = s.deferredState ∧
        (rs.foldl gatherRecord s).minTimeoutReached = s.minTimeoutReached := by
  induction rs with
  | nil => intro s; exact ⟨rfl, rfl⟩
  | cons r rest ih =>
      intro s
      simpa only [List.foldl_cons, gatherRecord] using ih (gatherRecord s r)

/-- Every result key after processing a list of records is an old key or
the sender name of one of the records. -/
lemma foldl_gatherRecord_keys (rs : List EventRecordData) :
    ∀ (s : PendingState) (k : String),
      k ∈ (rs.foldl gatherRecord s).result.map Prod.fst →
        k ∈ s.result.map Prod.fst ∨
          ∃ r ∈ rs, r.attributes.ScatherFunctionName = k := by
  induction rs with
  | nil => intro s k h; exact Or.inl h
  | cons r rest ih =>
      intro s k h
      rcases ih (gatherRecord s r) k h with h1 | ⟨r0, hm, hs⟩
      · rcases objSet_keys _ _ _ _ h1 with h2 | h2
        · exact Or.inr ⟨r, by simp, h2.symm⟩
        · exact Or.inl h2
      · exact Or.inr ⟨r0, by simp [hm], hs⟩

/-- Every result key after one event-loop task is an old key or the sender
name of a matching record delivered by that task. -/
lemma stepPending_keys (requestId : String) (s : PendingState) (e : Ev)
    (k : String)
    (hk : k ∈ (stepPending requestId s e).result.map Prod.fst) :
    k ∈ s.result.map Prod.fst ∨
      ∃ recs, e = Ev.deliver recs ∧ ∃ r ∈ recs,
        r.attributes.ScatherDirection = "response" ∧
        r.attributes.ScatherRequestId = requestId ∧
        r.attributes.ScatherFunctionName = k := by
  cases e with
  | minTimer =>
      left
      simp only [stepPending, minTimerFire] at hk
      split at hk <;> simpa using hk
  | maxTimer =>
      left
      simp only [stepPending, maxTimerFire] at hk
      split at hk <;> simpa using hk
  | deliver recs =>
      simp only [stepPending, gatherer] at hk
      split at hk
      · exact Or.inl hk
      · have hk2 :
            k ∈ ((extractScatherRecords recs fun d =>
                d.attributes.ScatherDirection == "response" &&
                  d.attributes.ScatherRequestId == requestId).foldl
              gatherRecord s).result.map Prod.fst := by
          split at hk <;> simpa using hk
        rcases foldl_gatherRecord_keys _ _ _ hk2 with h1 | ⟨r0, hm, hs⟩
        · exact Or.inl h1
        · refine Or.inr ⟨recs, rfl, r0, ?_, ?_, ?_, hs⟩
          · exact (List.mem_filter.mp hm).1
          · have := (List.mem_filter.mp hm).2
            simp only [Bool.and_eq_true, beq_iff_eq] at this
            exact this.1
          · have := (List.mem_filter.mp hm).2
            simp only [Bool.and_eq_true, beq_iff_eq] at this
            exact this.2

/-- Every result key after a run is an initial key or the sender name of a
matching record delivered during the run. -/
lemma runPending_keys (requestId : String) (evs : List Ev) :
    ∀ (s : PendingState) (k : String),
      k ∈ (runPending requestId s evs).result.map Prod.fst →
        k ∈ s.result.map Prod.fst ∨
          ∃ recs, Ev.deliver recs ∈ evs ∧ ∃ r ∈ recs,
            r.attributes.ScatherDirection = "response" ∧
            r.attributes.ScatherRequestId = requestId ∧
            r.attributes.ScatherFunctionName = k := by
  induction evs with
  | nil => intro s k h; exact Or.inl h
  | cons e rest ih =>
      intro s k h
      rcases ih (stepPending requestId s e) k h with h1 | ⟨recs, hm, hr⟩
      · rcases stepPending_keys requestId s e k h1 with h2 | ⟨recs, he, hr⟩
        · exact Or.inl h2
        · exact Or.inr ⟨recs, by simp [he], hr⟩
      · exact Or.inr ⟨recs, by simp [hm], hr⟩

/-- A concrete reply record from the unexpected sender `X`, matching
request id `r1`. -/
def recX : EventRecordData :=
  { attributes :=
      { ScatherDirection := "response"
        ScatherFunctionName := "X"
        ScatherResponseArn := "arn-reply"
        ScatherRequestId := "r1" }
    message := "m" }

/-- C1: counterexample.  With `expects = []`, delivering a single matching
reply from sender `X` while the request is pending puts the key `X` into
`resultMap` even though `X` is not in `expects` — the gatherer stores
`result[senderName] = record.message` unconditionally
(`src/bin/scatter-gather.js:109`), so `resultMap.keys() ⊆ expects` fails. -/
theorem C1_counterexample :
    ((gatherer "r1" (initPending []) [recX]).result.map Prod.fst = ["X"]) ∧
      "X" ∉ ([] : List String) := by
  constructor
  · rfl
  · simp

/-- C1 (amended): every key of `resultMap` is either an expected responder
name or the sender name of some matching reply record (direction
`response`, matching correlation id) delivered during the request's life;
replies from senders outside `expects` do add their key. -/
theorem C1_resultMap_keys (requestId : String) (expects : List String)
    (evs : List Ev) (k : String)
    (hk : k ∈ (runPending requestId (initPending expects) evs).result.map
      Prod.fst) :
    k ∈ expects ∨ ∃ recs, Ev.deliver recs ∈ evs ∧ ∃ r ∈ recs,
      r.attributes.ScatherDirection = "response" ∧
      r.attributes.ScatherRequestId = requestId ∧
      r.attributes.ScatherFunctionName = k := by
  rcases runPending_keys requestId evs (initPending expects) k hk with h | h
  · simp [initPending] at h
  · exact Or.inr h

/-- C1 (amended) at a concrete input: the key `X` of the run delivering
`recX` is accounted for by the matching reply from `X`. -/
theorem C1_resultMap_keys_witness :
    "X" ∈ ([] : List String) ∨
      ∃ recs, Ev.deliver recs ∈ [Ev.deliver [recX]] ∧ ∃ r ∈ recs,
        r.attributes.ScatherDirection = "response" ∧
        r.attributes.ScatherRequestId = "r1" ∧
        r.attributes.ScatherFunctionName = "X" :=
  C1_resultMap_keys "r1" [] [Ev.deliver [recX]] "X" (by decide)

/-- A trace made only of reply deliveries leaves a pending request with
`minTimeoutReached` still false pending: the gatherer resolves only when
`minTimeoutReached` is true, and only the `minWait` timer sets it. -/
lemma runPending_delivers_pending (requestId : String) (evs : List Ev)
    (hdel : ∀ e ∈ evs, ∃ recs, e = Ev.deliver recs) :
    ∀ s : PendingState, s.deferredState = .pending →
      s.minTimeoutReached = false →
        (runPending requestId s evs).deferredState = .pending ∧
          (runPending requestId s evs).minTimeoutReached = false := by
  induction evs with
  | nil => intro s h1 h2; exact ⟨h1, h2⟩
  | cons e rest ih =>
      intro s h1 h2
      obtain ⟨recs, rfl⟩ := hdel e (by simp)
      have hstep :
          (stepPending requestId s (Ev.deliver recs)).deferredState =
              .pending ∧
            (stepPending requestId s (Ev.deliver recs)).minTimeoutReached =
              false := by
        simp only [stepPending, gatherer]
        rw [if_neg (by simp [h1, isPending])]
        have hframe := foldl_gatherRecord_frame
          (extractScatherRecords recs fun d =>
            d.attributes.ScatherDirection == "response" &&
              d.attributes.ScatherRequestId == requestId) s
        rw [if_neg (by simp [hframe.2, h2])]
        exact ⟨by simp [hframe.1, h1], by simp [hframe.2, h2]⟩
      exact ih (fun e he => hdel e (by simp [he])) _ hstep.1 hstep.2

/-- C2: with `minWait ≤ maxWait`, the completion handle is never resolved
strictly before `minWait` has elapsed.  Any prefix of event-loop tasks all
running at times `< minWait` can contain neither timer (each timer runs no
earlier than its delay), so it consists of reply deliveries only, and those
never resolve while `minTimeoutReached` is false — even when every expected
reply has already arrived and `missing` is empty. -/
theorem C2_no_early_resolution (minWait maxWait : Nat) (requestId : String)
    (expects : List String) (tes : List TimedEv)
    (hwait : minWait ≤ maxWait)
    (hminT : ∀ te ∈ tes, te.ev = Ev.minTimer → minWait ≤ te.time)
    (hmaxT : ∀ te ∈ tes, te.ev = Ev.maxTimer → maxWait ≤ te.time)
    (hbefore : ∀ te ∈ tes, te.time < minWait) :
    (runPending requestId (initPending expects)
      (tes.map TimedEv.ev)).deferredState = .pending := by
  have hdel : ∀ e ∈ tes.map TimedEv.ev, ∃ recs, e = Ev.deliver recs := by
    intro e he
    rcases List.mem_map.mp he with ⟨te, hte, rfl⟩
    cases h : te.ev with
    | minTimer =>
        exact absurd (hminT te hte h) (by
          have := hbefore te hte
          omega)
    | maxTimer =>
        exact absurd (hmaxT te hte h) (by
          have := hbefore te hte
          omega)
    | deliver recs => exact ⟨recs, rfl⟩
  exact (runPending_delivers_pending requestId _ hdel _ rfl rfl).1

/-- A concrete reply record from the expected sender `A`, matching request
id `r1`. -/
def recA : EventRecordData :=
  { attributes :=
      { ScatherDirection := "response"
        ScatherFunctionName := "A"
        ScatherResponseArn := "arn-reply"
        ScatherRequestId := "r1" }
    message := "payload-A" }

/-- C2 at a concrete input: `expects = [A]`, `minWait = 5`, `maxWait = 10`;
the only expected reply arrives at time 0 (so `missing` is already empty),
yet the handle is still pending. -/
theorem C2_no_early_resolution_witness :
    (runPending "r1" (initPending ["A"])
      ([TimedEv.mk 0 (Ev.deliver [recA])].map TimedEv.ev)).deferredState =
      DeferredState.pending :=
  C2_no_early_resolution 5 10 "r1" ["A"] [TimedEv.mk 0 (Ev.deliver [recA])]
    (by decide) (by decide) (by decide) (by decide)

/-- A task never changes the deferred once it has left the pending
state. -/
lemma stepPending_settled (requestId : String) (s : PendingState) (e : Ev)
    (h : s.deferredState ≠ .pending) :
    (stepPending requestId s e).deferredState = s.deferredState := by
  have hp : isPending s.deferredState = false := by
    cases hd : s.deferredState with
    | pending => exact absurd hd h
    | fulfilled v => rfl
    | rejected e0 => rfl
  cases e with
  | minTimer =>
      simp only [stepPending, minTimerFire]
      rw [if_neg (by simp [hp])]
  | maxTimer =>
      simp only [stepPending, maxTimerFire, hp]
      simp
  | deliver recs =>
      simp only [stepPending, gatherer, hp]
      simp

/-- A run never changes the deferred once it has left the pending state. -/
lemma runPending_settled (requestId : String) (evs : List Ev) :
    ∀ s : PendingState, s.deferredState ≠ .pending →
      (runPending requestId s evs).deferredState = s.deferredState := by
  induction evs with
  | nil => intro s _; rfl
  | cons e rest ih =>
      intro s h
      have hstep := stepPending_settled requestId s e h
      rw [runPending, ih _ (by rw [hstep]; exact h), hstep]

/-- No task ever rejects the deferred: from a pending-or-fulfilled state,
every task leads to a pending-or-fulfilled state. -/
lemma stepPending_not_rejected (requestId : String) (s : PendingState)
    (e : Ev)
    (h : s.deferredState = .pending ∨ ∃ r, s.deferredState = .fulfilled r) :
    (stepPending requestId s e).deferredState = .pending ∨
      ∃ r, (stepPending requestId s e).deferredState = .fulfilled r := by
  rcases h with h | ⟨r, hr⟩
  · cases e with
    | minTimer =>
        simp only [stepPending, minTimerFire]
        split
        · exact Or.inr ⟨s.result, by simp [h, deferResolve]⟩
        · exact Or.inl h
    | maxTimer =>
        simp only [stepPending, maxTimerFire]
        split
        · exact Or.inr ⟨s.result, by simp [h, deferResolve]⟩
        · exact Or.inl h
    | deliver recs =>
        simp only [stepPending, gatherer]
        split
        · exact Or.inl h
        · have hframe := foldl_gatherRecord_frame
            (extractScatherRecords recs fun d =>
              d.attributes.ScatherDirection == "response" &&
                d.attributes.ScatherRequestId == requestId) s
          split
          · exact Or.inr ⟨(List.foldl gatherRecord s
              (extractScatherRecords recs fun d =>
                d.attributes.ScatherDirection == "response" &&
                  d.attributes.ScatherRequestId == requestId)).result,
              by simp [hframe.1, h, deferResolve]⟩
          · exact Or.inl (by simp [hframe.1, h])
  · have := stepPending_settled requestId s e (by simp [hr])
    exact Or.inr ⟨r, by rw [this, hr]⟩

/-- A run never rejects the deferred. -/
lemma runPending_not_rejected (requestId : String) (evs : List Ev) :
    ∀ s : PendingState,
      (s.deferredState = .pending ∨ ∃ r, s.deferredState = .fulfilled r) →
        (runPending requestId s evs).deferredState = .pending ∨
          ∃ r, (runPending requestId s evs).deferredState = .fulfilled r := by
  induction evs with
  | nil => intro s h; exact h
  | cons e rest ih =>
      intro s h
      exact ih _ (stepPending_not_rejected requestId s e h)

/-- Running a concatenated trace runs the two parts in sequence. -/
lemma runPending_append (requestId : String) (l1 l2 : List Ev) :
    ∀ s : PendingState,
      runPending requestId s (l1 ++ l2) =
        runPending requestId (runPending requestId s l1) l2 := by
  induction l1 with
  | nil => intro s; rfl
  | cons e rest ih =>
      intro s
      simp only [List.cons_append, runPending]
      exact ih _

/-- C3: the `maxWait` timer settles a still-pending handle by fulfilling it
with the current `resultMap` (first conjunct, the timer body at
`src/bin/scatter-gather.js:67-69`), and any run of the request in which
the `maxWait` timer fires ends with the handle fulfilled — never pending
and never rejected — so a timeout with missing replies is a normal
fulfillment with a partial result. -/
theorem C3_maxWait_resolves (requestId : String) (expects : List String)
    (evs : List Ev) (hmem : Ev.maxTimer ∈ evs) :
    (∀ s : PendingState, s.deferredState = .pending →
        maxTimerFire s = { s with deferredState := .fulfilled s.result }) ∧
      ∃ r, (runPending requestId (initPending expects) evs).deferredState =
        DeferredState.fulfilled r := by
  constructor
  · intro s hs
    simp [maxTimerFire, hs, isPending, deferResolve]
  · obtain ⟨l1, l2, rfl⟩ := List.append_of_mem hmem
    rw [runPending_append]
    set mid := runPending requestId (initPending expects) l1 with hmid
    have hmid2 :
        mid.deferredState = .pending ∨
          ∃ r, mid.deferredState = .fulfilled r :=
      runPending_not_rejected requestId l1 (initPending expects)
        (Or.inl rfl)
    have hstep :
        ∃ r, (stepPending requestId mid Ev.maxTimer).deferredState =
          DeferredState.fulfilled r := by
      rcases hmid2 with h | ⟨r, hr⟩
      · exact ⟨mid.result, by
          simp [stepPending, maxTimerFire, h, isPending, deferResolve]⟩
      · exact ⟨r, by
          rw [stepPending_settled requestId mid Ev.maxTimer (by simp [hr])]
          exact hr⟩
    obtain ⟨r, hr⟩ := hstep
    simp only [runPending]
    exact ⟨r, by
      rw [runPending_settled requestId l2 _ (by simp [hr])]
      exact hr⟩

/-- C3 at a concrete input: with `expects = [A, B]` and no reply ever
delivered, the `maxWait` timer firing fulfills the handle (here with the
empty result map). -/
theorem C3_maxWait_resolves_witness :
    (∀ s : PendingState, s.deferredState = .pending →
        maxTimerFire s = { s with deferredState := .fulfilled s.result }) ∧
      ∃ r, (runPending "r1" (initPending ["A", "B"])
        [Ev.maxTimer]).deferredState = DeferredState.fulfilled r :=
  C3_maxWait_resolves "r1" ["A", "B"] [Ev.maxTimer] (by decide)

/-- C4: once the completion handle has left the pending state, a delivered
reply event alters nothing — the gatherer observes the settled promise and
returns before any mutation (`src/bin/scatter-gather.js:92`) — and hence a
whole trace of further reply deliveries, late or duplicate, leaves the
PendingRequest state (in particular `resultMap` and `missing`) exactly as
it was. -/
theorem C4_settled_immutable (requestId : String) (s : PendingState)
    (h : s.deferredState ≠ .pending) :
    (∀ event, gatherer requestId s event = s) ∧
      ∀ evs : List Ev, (∀ e ∈ evs, ∃ recs, e = Ev.deliver recs) →
        runPending requestId s evs = s := by
  have hp : isPending s.deferredState = false := by
    cases hd : s.deferredState with
    | pending => exact absurd hd h
    | fulfilled v => rfl
    | rejected e0 => rfl
  have hg : ∀ event, gatherer requestId s event = s := by
    intro event
    simp [gatherer, hp]
  refine ⟨hg, ?_⟩
  intro evs hdel
  induction evs with
  | nil => rfl
  | cons e rest ih =>
      obtain ⟨recs, rfl⟩ := hdel e (by simp)
      rw [runPending,
        show stepPending requestId s (Ev.deliver recs) = s from hg recs]
      exact ih fun e he => hdel e (by simp [he])

/-- A concrete settled PendingRequest: the reply from `A` arrived and the
handle was fulfilled. -/
def settledState : PendingState :=
  { missing := []
    result := [("A", "payload-A")]
    minTimeoutReached := true
    deferredState := .fulfilled [("A", "payload-A")] }

/-- C4 at a concrete input: a duplicate reply from `A` delivered after
settlement changes nothing. -/
theorem C4_settled_immutable_witness :
    (∀ event, gatherer "r1" settledState event = settledState) ∧
      ∀ evs : List Ev, (∀ e ∈ evs, ∃ recs, e = Ev.deliver recs) →
        runPending "r1" settledState evs = settledState :=
  C4_settled_immutable "r1" settledState (by decide)

/-! ## Claims about the aggregator lifecycle -/

/-- C5: counterexample.  The synchronous body of `unsubscribe()` does not
touch `subscribed` — the flag is only cleared inside the `.then`
continuation (`src/bin/scatter-gather.js:134-136`), which runs on a later
event-loop tick even when no request is outstanding.  So immediately after
`unsubscribe()` is called, `subscribed` is still `true`, and an `invoke`
issued at that moment is accepted and publishes a request event instead of
failing. -/
theorem C5_counterexample :
    (runAgg initAgg [AEv.unsubscribeCall, AEv.invoke]).subscribed = true ∧
      (runAgg initAgg
        [AEv.unsubscribeCall, AEv.invoke]).publishedRequests = 1 ∧
      (runAgg initAgg [AEv.unsubscribeCall, AEv.invoke]).rejectedInvokes =
        0 := by
  decide

/-- The `subscribed` flag, once false, is never set back to true. -/
lemma stepAgg_subscribed_false (s : AggState) (e : AEv)
    (h : s.subscribed = false) : (stepAgg s e).subscribed = false := by
  cases e with
  | invoke => simp [stepAgg, h]
  | settle id =>
      simp only [stepAgg]
      split <;> simp [h]
  | unsubscribeCall =>
      simp only [stepAgg]
      split <;> simp [h]
  | unsubscribeContinue =>
      simp only [stepAgg]
      split <;> simp [h]

/-- C5 (amended): `unsubscribe()` does not reject invokes from the moment
it is called; `subscribed` becomes false exactly when its completion
continuation runs (`unsubDone`), and from any state with `subscribed`
false, an `invoke` only increments the rejected-invoke count — it
publishes no request event and registers no gatherer — and `subscribed`
stays false forever after. -/
theorem C5_unsubscribed_invoke_rejected :
    (∀ s : AggState, s.subscribed = false →
        stepAgg s AEv.invoke =
          { s with rejectedInvokes := s.rejectedInvokes + 1 }) ∧
      (∀ (s : AggState) (evs : List AEv), s.subscribed = false →
        (runAgg s evs).subscribed = false) ∧
      ∀ evs : List AEv,
        (runAgg initAgg evs).subscribed = !(runAgg initAgg evs).unsubDone := by
  refine ⟨fun s h => by simp [stepAgg, h], ?_, ?_⟩
  · intro s evs
    induction evs generalizing s with
    | nil => exact fun h => h
    | cons e rest ih =>
        intro h
        exact ih _ (stepAgg_subscribed_false s e h)
  · have hstep : ∀ (s : AggState) (e : AEv),
        s.subscribed = !s.unsubDone →
          (stepAgg s e).subscribed = !(stepAgg s e).unsubDone := by
      intro s e h
      cases e with
      | invoke =>
          simp only [stepAgg]
          split <;> simp [h]
      | settle id =>
          simp only [stepAgg]
          split <;> simp [h]
      | unsubscribeCall =>
          simp only [stepAgg]
          split <;> simp [h]
      | unsubscribeContinue =>
          simp only [stepAgg]
          split <;> simp [h]
    intro evs
    have hrun : ∀ (s : AggState), s.subscribed = !s.unsubDone →
        (runAgg s evs).subscribed = !(runAgg s evs).unsubDone := by
      induction evs with
      | nil => exact fun s h => h
      | cons e rest ih => exact fun s h => ih _ (hstep s e h)
    exact hrun initAgg rfl

/-- A concrete unsubscribed aggregator state. -/
def unsubscribedState : AggState :=
  { initAgg with
      subscribed := false
      listenerSubscribed := false
      unsubCalled := true
      unsubDone := true }

/-- C5 (amended) at a concrete input: an invoke against an unsubscribed
aggregator is rejected without publishing, the flag stays false over a
further trace, and on the trace that performs a full unsubscribe the flag
mirrors the teardown continuation. -/
theorem C5_unsubscribed_invoke_rejected_witness :
    stepAgg unsubscribedState AEv.invoke =
        { unsubscribedState with
            rejectedInvokes := unsubscribedState.rejectedInvokes + 1 } ∧
      (runAgg unsubscribedState [AEv.invoke, AEv.invoke]).subscribed =
        false ∧
      (runAgg initAgg
          [AEv.unsubscribeCall, AEv.unsubscribeContinue]).subscribed =
        !(runAgg initAgg
          [AEv.unsubscribeCall, AEv.unsubscribeContinue]).unsubDone :=
  ⟨C5_unsubscribed_invoke_rejected.1 unsubscribedState rfl,
    C5_unsubscribed_invoke_rejected.2.1 unsubscribedState
      [AEv.invoke, AEv.invoke] rfl,
    C5_unsubscribed_invoke_rejected.2.2
      [AEv.unsubscribeCall, AEv.unsubscribeContinue]⟩

/-- The invariant carried by every reachable aggregator state: teardown
completion implies the `unsubscribe()` body ran and every snapshotted
promise settled, and the reply-topic listener is registered exactly while
teardown has not completed. -/
def AggInv (s : AggState) : Prop :=
  (s.unsubDone = true → s.unsubCalled = true) ∧
    (s.unsubDone = true → ∀ id ∈ s.unsubSnapshot, id ∈ s.settled) ∧
    s.listenerSubscribed = !s.unsubDone

/-- One aggregator task preserves the invariant. -/
lemma stepAgg_inv (s : AggState) (e : AEv) (h : AggInv s) :
    AggInv (stepAgg s e) := by
  obtain ⟨h1, h2, h3⟩ := h
  cases e with
  | invoke =>
      simp only [stepAgg]
      split <;> exact ⟨h1, h2, h3⟩
  | settle id =>
      simp only [stepAgg]
      split
      · refine ⟨h1, fun hd id0 hid0 => ?_, h3⟩
        exact List.mem_append_left _ (h2 hd id0 hid0)
      · exact ⟨h1, h2, h3⟩
  | unsubscribeCall =>
      simp only [stepAgg]
      split
      · exact ⟨h1, h2, h3⟩
      · rename_i hnc
        refine ⟨fun _ => rfl, fun hd => ?_, h3⟩
        exact absurd (h1 hd) (by simpa using hnc)
  | unsubscribeContinue =>
      simp only [stepAgg]
      split
      · rename_i hguard
        simp only [Bool.and_eq_true, Bool.not_eq_true] at hguard
        refine ⟨fun _ => hguard.1.1, fun _ id0 hid0 => ?_, by simp⟩
        have := List.all_eq_true.mp hguard.2 id0 hid0
        simpa using this
      · exact ⟨h1, h2, h3⟩

/-- Every state reachable from the initial aggregator state satisfies the
invariant. -/
lemma runAgg_inv (evs : List AEv) :
    ∀ s : AggState, AggInv s → AggInv (runAgg s evs) := by
  induction evs with
  | nil => exact fun s h => h
  | cons e rest ih => exact fun s h => ih _ (stepAgg_inv s e h)

/-- `.catch(fnUndefined)` always yields a fulfilled outcome. -/
lemma catchUndefined_fulfilled {α : Type} (o : JsOutcome α) :
    ∃ v, catchUndefined o = JsOutcome.fulfilled v := by
  cases o with
  | fulfilled v => exact ⟨some v, rfl⟩
  | rejected e => exact ⟨none, rfl⟩

/-- `Promise.all` over `.catch(fnUndefined)`-wrapped settled promises is
always fulfilled. -/
lemma promiseAll_catch_fulfilled {α : Type} (outs : List (JsOutcome α)) :
    ∃ vs, promiseAll (outs.map catchUndefined) = JsOutcome.fulfilled vs := by
  induction outs with
  | nil => exact ⟨[], rfl⟩
  | cons o rest ih =>
      obtain ⟨v, hv⟩ := catchUndefined_fulfilled o
      obtain ⟨vs, hvs⟩ := ih
      exact ⟨v :: vs, by simp [promiseAll, hv, hvs]⟩

/-- C6: in every reachable aggregator state, if the teardown continuation
has run (the future returned by `unsubscribe()` has fulfilled), then every
promise snapshotted at the moment of the call has settled; the reply-topic
listener is removed only by that continuation; and `Promise.all` over the
`.catch(fnUndefined)`-wrapped promises can never reject, so a rejected
PendingRequest counts the same as a fulfilled one and cannot fail the
returned future. -/
theorem C6_unsubscribe_drains :
    (∀ evs : List AEv, (runAgg initAgg evs).unsubDone = true →
        ∀ id ∈ (runAgg initAgg evs).unsubSnapshot,
          id ∈ (runAgg initAgg evs).settled) ∧
      (∀ evs : List AEv, (runAgg initAgg evs).listenerSubscribed = false →
        (runAgg initAgg evs).unsubDone = true) ∧
      ∀ (α : Type) (outs : List (JsOutcome α)) (e : String),
        promiseAll (outs.map catchUndefined) ≠ JsOutcome.rejected e := by
  have hinv : ∀ evs : List AEv, AggInv (runAgg initAgg evs) := by
    intro evs
    refine runAgg_inv evs initAgg ?_
    unfold AggInv
    refine ⟨?_, ?_, ?_⟩
    · intro h
      cases h
    · intro h
      cases h
    · rfl
  refine ⟨fun evs hd => (hinv evs).2.1 hd, fun evs hl => ?_, ?_⟩
  · have := (hinv evs).2.2
    rw [hl] at this
    cases hu : (runAgg initAgg evs).unsubDone with
    | false => rw [hu] at this; cases this
    | true => rfl
  · intro α outs e
    obtain ⟨vs, hvs⟩ := promiseAll_catch_fulfilled outs
    rw [hvs]
    simp

/-- C6 at a concrete input: a full unsubscribe trace has drained its
snapshot and removed the listener exactly when the continuation ran; a
rejected promise wrapped by `.catch(fnUndefined)` cannot reject the
`Promise.all`. -/
theorem C6_unsubscribe_drains_witness :
    (∀ id ∈ (runAgg initAgg
        [AEv.invoke, AEv.settle 0, AEv.unsubscribeCall,
          AEv.unsubscribeContinue]).unsubSnapshot,
        id ∈ (runAgg initAgg
          [AEv.invoke, AEv.settle 0, AEv.unsubscribeCall,
            AEv.unsubscribeContinue]).settled) ∧
      (runAgg initAgg
          [AEv.invoke, AEv.settle 0, AEv.unsubscribeCall,
            AEv.unsubscribeContinue]).unsubDone = true ∧
      promiseAll (([JsOutcome.rejected "boom"] :
          List (JsOutcome (List (String × String)))).map catchUndefined) ≠
        JsOutcome.rejected "boom" :=
  ⟨C6_unsubscribe_drains.1
      [AEv.invoke, AEv.settle 0, AEv.unsubscribeCall,
        AEv.unsubscribeContinue] (by decide),
    C6_unsubscribe_drains.2.1
      [AEv.invoke, AEv.settle 0, AEv.unsubscribeCall,
        AEv.unsubscribeContinue] (by decide),
    C6_unsubscribe_drains.2.2 (List (String × String))
      [JsOutcome.rejected "boom"] "boom"⟩

/-- C9: the cleanup registered on settlement
(`src/bin/scatter-gather.js:82-86`) fails to do what its own comment
says — "remove active data once promise is not pending" — because it calls
`gatherers.slice(index, 1)`, which copies and does not mutate (`splice`
was intended).  After an invoke whose promise settles, the entry is still
in the `gatherers` list. -/
theorem C9_settled_entry_not_removed :
    (runAgg initAgg [AEv.invoke, AEv.settle 0]).gatherersList = [0] ∧
      (runAgg initAgg [AEv.invoke, AEv.settle 0]).settled = [0] ∧
      cleanupOnSettle [0] 0 = [0] := by
  decide

/-! ## Helper lemmas about the responder -/

/-- Zipping a list with its own map pairs each element with its image, so
the per-record publication filter can be read off record by record. -/
lemma zip_map_filterMap_response (l : List EventRecordData)
    (f : EventRecordData → JsOutcome String) (name : String) :
    ((l.zip (l.map f)).filterMap fun p =>
        match p.2 with
        | JsOutcome.fulfilled m => some (replyEventFor name p.1 m)
        | JsOutcome.rejected _ => none) =
      l.filterMap fun r =>
        match f r with
        | JsOutcome.fulfilled m => some (replyEventFor name r m)
        | JsOutcome.rejected _ => none := by
  induction l with
  | nil => rfl
  | cons a rest ih =>
      cases h : f a with
      | fulfilled m =>
          simp only [List.map_cons, List.zip_cons_cons, List.filterMap_cons,
            h, ih]
      | rejected e =>
          simp only [List.map_cons, List.zip_cons_cons, List.filterMap_cons,
            h, ih]

/-- A successful responder call, written out: the per-record outcomes are
the handler's outcome on each request record, the published replies are
those of the fulfilled records in order, and the outer completion follows
the paradigm fixed at wrap time. -/
lemma response_eq (argText : String) (handler : Handler)
    (event : List EventRecordData) (ctx : Ctx) (cbs : Bool)
    (hname : ctx.functionName ≠ "") :
    response argText handler event (some ctx) cbs = .ok
      { recordOutcomes :=
          (requestRecords event).map (recordOutcome handler ctx)
        published := (requestRecords event).filterMap fun r =>
          match recordOutcome handler ctx r with
          | JsOutcome.fulfilled m =>
              some (replyEventFor ctx.functionName r m)
          | JsOutcome.rejected _ => none
        outer :=
          if 3 ≤ (callbackArguments argText).length then
            match promiseAll
                ((requestRecords event).map (recordOutcome handler ctx)) with
            | JsOutcome.fulfilled arr =>
                OuterResult.callbackInvoked none (some arr)
            | JsOutcome.rejected e =>
                OuterResult.callbackInvoked (some e) none
          else
            OuterResult.futureReturned (promiseAll
              ((requestRecords event).map (recordOutcome handler ctx))) } := by
  simp only [response, if_neg hname]
  rw [zip_map_filterMap_response]

/-- Over records whose handler all succeed, the publication filter is a
plain map: one reply per record. -/
lemma filterMap_all_ok (handler : Handler) (ctx : Ctx)
    (dfn : EventRecordData → String) (l : List EventRecordData)
    (hok : ∀ r ∈ l, recordOutcome handler ctx r = .fulfilled (dfn r)) :
    (l.filterMap fun r =>
        match recordOutcome handler ctx r with
        | JsOutcome.fulfilled m => some (replyEventFor ctx.functionName r m)
        | JsOutcome.rejected _ => none) =
      l.map fun r => replyEventFor ctx.functionName r (dfn r) := by
  induction l with
  | nil => rfl
  | cons a rest ih =>
      rw [List.filterMap_cons, List.map_cons]
      simp only [hok a (by simp)]
      rw [ih fun r hr => hok r (by simp [hr])]

/-- `Promise.all` fulfills with one value per input promise. -/
lemma promiseAll_fulfilled_length {α : Type} (l : List (JsOutcome α)) :
    ∀ arr, promiseAll l = JsOutcome.fulfilled arr → arr.length = l.length := by
  induction l with
  | nil =>
      intro arr h
      simp only [promiseAll] at h
      cases h
      rfl
  | cons o rest ih =>
      intro arr h
      cases o with
      | fulfilled v =>
          simp only [promiseAll] at h
          cases hrest : promiseAll rest with
          | fulfilled vs =>
              rw [hrest] at h
              cases h
              simp [ih vs hrest]
          | rejected e =>
              rw [hrest] at h
              cases h
      | rejected e =>
          simp only [promiseAll] at h
          cases h

/-- C7: per-record failure isolation.  If among the matched request records
exactly one — `rbad`, at position `l1.length` — fails (its handler raises
or hands its continuation an error) while every sibling succeeds, then the
batch call still succeeds, `rbad`'s internal completion handle is rejected
with its error, and the published reply events are exactly one reply per
succeeding sibling, in order — none for `rbad`. -/
theorem C7_failure_isolation (argText : String) (handler : Handler)
    (event : List EventRecordData) (ctx : Ctx) (cbs : Bool)
    (l1 l2 : List EventRecordData) (rbad : EventRecordData)
    (dfn : EventRecordData → String) (e : String)
    (hname : ctx.functionName ≠ "")
    (hrecords : requestRecords event = l1 ++ rbad :: l2)
    (hfail : recordOutcome handler ctx rbad = .rejected e)
    (hok : ∀ r ∈ l1 ++ l2, recordOutcome handler ctx r = .fulfilled (dfn r)) :
    ∃ o, response argText handler event (some ctx) cbs = .ok o ∧
      o.recordOutcomes[l1.length]? = some (JsOutcome.rejected e) ∧
      o.published =
        (l1 ++ l2).map fun r => replyEventFor ctx.functionName r (dfn r) := by
  refine ⟨_, response_eq argText handler event ctx cbs hname, ?_, ?_⟩
  · show ((requestRecords event).map (recordOutcome handler ctx))[l1.length]? =
      some (JsOutcome.rejected e)
    rw [hrecords, List.map_append, List.map_cons,
      List.getElem?_append_right (by simp)]
    simp [hfail]
  · show ((requestRecords event).filterMap fun r =>
        match recordOutcome handler ctx r with
        | JsOutcome.fulfilled m => some (replyEventFor ctx.functionName r m)
        | JsOutcome.rejected _ => none) =
      (l1 ++ l2).map fun r => replyEventFor ctx.functionName r (dfn r)
    rw [hrecords, List.filterMap_append, List.filterMap_cons]
    simp only [hfail]
    rw [filterMap_all_ok handler ctx dfn l1
        fun r hr => hok r (List.mem_append_left _ hr),
      filterMap_all_ok handler ctx dfn l2
        fun r hr => hok r (List.mem_append_right _ hr),
      List.map_append]

/-- The outer context used by the concrete responder scenarios. -/
def exCtx : Ctx := { functionName := "responder", scather := none }

/-- A request-direction record carrying the given payload. -/
def reqRec (msg : String) : EventRecordData :=
  { attributes :=
      { ScatherDirection := "request"
        ScatherFunctionName := "requester"
        ScatherResponseArn := "arn-reply"
        ScatherRequestId := "r1" }
    message := msg }

/-- A handler that fails on the payload `bad` and echoes anything else. -/
def exHandler : Handler := fun message _ =>
  if message = "bad" then Except.error "boom" else Except.ok message

/-- A batch of three matched records whose middle record makes the handler
fail. -/
def exBatch : List EventRecordData := [reqRec "one", reqRec "bad", reqRec "two"]

/-- C7 at a concrete input: in a batch of three records whose middle one
fails, the middle handle is rejected and exactly the two sibling replies
are published. -/
theorem C7_failure_isolation_witness :
    ∃ o, response "data, context" exHandler exBatch (some exCtx) false =
        .ok o ∧
      o.recordOutcomes[1]? = some (JsOutcome.rejected "boom") ∧
      o.published = ([reqRec "one", reqRec "two"]).map
        fun r => replyEventFor "responder" r r.message :=
  C7_failure_isolation "data, context" exHandler exBatch exCtx false
    [reqRec "one"] [reqRec "two"] (reqRec "bad") (fun r => r.message) "boom"
    (by decide) (by decide) (by decide) (by decide)

/-- The outer completion of a responder call, when the call succeeded. -/
def outerOf (r : Except String ResponseOutcome) : Option OuterResult :=
  match r with
  | .ok o => some o.outer
  | .error _ => none

/-- A handler that echoes its message back through the continuation. -/
def echoHandler : Handler := fun message _ => Except.ok message

/-- C8: counterexample.  Two batches that both contain exactly one matched
record — so the same count of records processed — drive the outer
continuation with different second arguments (`["Hello"]` versus
`["Bye"]`): the continuation receives the `Promise.all` array of
per-record results (`src/bin/scatter-gather.js:222`), not the
count-of-records-processed (the count appears only in a log line at
`:217`). -/
theorem C8_counterexample :
    (requestRecords [reqRec "Hello"]).length =
        (requestRecords [reqRec "Bye"]).length ∧
      outerOf (response "data, context, callback" echoHandler
          [reqRec "Hello"] (some exCtx) true) =
        some (OuterResult.callbackInvoked none (some ["Hello"])) ∧
      outerOf (response "data, context, callback" echoHandler
          [reqRec "Bye"] (some exCtx) true) =
        some (OuterResult.callbackInvoked none (some ["Bye"])) := by
  decide

/-- C8 (amended): when the handler was wrapped in the callback paradigm,
the outer continuation is invoked exactly once, after all records have
been processed: with `(null, arr)` where `arr` is the array of per-record
results — one per matched record, so `arr.length` is the count of records
processed — when every record's handling succeeded, and with
`(first error, null)` when any record's handling failed. -/
theorem C8_callback_completion (argText : String) (handler : Handler)
    (event : List EventRecordData) (ctx : Ctx) (cbs : Bool)
    (hname : ctx.functionName ≠ "")
    (hcb : 3 ≤ (callbackArguments argText).length) :
    ∃ o, response argText handler event (some ctx) cbs = .ok o ∧
      o.outer = (match promiseAll o.recordOutcomes with
        | JsOutcome.fulfilled arr =>
            OuterResult.callbackInvoked none (some arr)
        | JsOutcome.rejected e =>
            OuterResult.callbackInvoked (some e) none) ∧
      ∀ arr, promiseAll o.recordOutcomes = JsOutcome.fulfilled arr →
        arr.length = (requestRecords event).length := by
  refine ⟨_, response_eq argText handler event ctx cbs hname, ?_, ?_⟩
  · simp only [if_pos hcb]
  · intro arr harr
    have := promiseAll_fulfilled_length _ arr harr
    simpa using this

/-- C8 (amended) at a concrete input: a one-record batch invokes the
continuation with `(null, ["Hello"])`, an array whose length is the count
of records processed. -/
theorem C8_callback_completion_witness :
    ∃ o, response "data, context, callback" echoHandler [reqRec "Hello"]
        (some exCtx) true = .ok o ∧
      o.outer = (match promiseAll o.recordOutcomes with
        | JsOutcome.fulfilled arr =>
            OuterResult.callbackInvoked none (some arr)
        | JsOutcome.rejected e =>
            OuterResult.callbackInvoked (some e) none) ∧
      ∀ arr, promiseAll o.recordOutcomes = JsOutcome.fulfilled arr →
        arr.length = (requestRecords [reqRec "Hello"]).length :=
  C8_callback_completion "data, context, callback" echoHandler
    [reqRec "Hello"] exCtx true (by decide) (by decide)

/-- C10: the calling convention is fixed once at wrap time by the declared
arity of the handler.  Whenever `callbackArguments` finds fewer than three
declared parameters, every successful call of the wrapped entry point
returns the batch future and never invokes a call-time continuation — the
`callbackSupplied` argument (whether the caller passed one) is never
consulted. -/
theorem C10_paradigm_fixed_at_wrap (argText : String) (handler : Handler)
    (event : List EventRecordData) (ctx : Ctx) (callbackSupplied : Bool)
    (hname : ctx.functionName ≠ "")
    (harity : (callbackArguments argText).length < 3) :
    ∃ o, response argText handler event (some ctx) callbackSupplied =
        .ok o ∧
      o.outer = OuterResult.futureReturned (promiseAll o.recordOutcomes) ∧
      ∀ err data, o.outer ≠ OuterResult.callbackInvoked err data := by
  refine ⟨_, response_eq argText handler event ctx callbackSupplied hname,
    ?_, ?_⟩
  · simp only [if_neg (by omega : ¬ 3 ≤ (callbackArguments argText).length)]
  · intro err data
    simp only [if_neg (by omega : ¬ 3 ≤ (callbackArguments argText).length)]
    intro h
    cases h

/-- C10 at a concrete input: a two-parameter handler wrapped and called
with a continuation supplied still completes by returning the batch
future. -/
theorem C10_paradigm_fixed_at_wrap_witness :
    ∃ o, response "data, context" echoHandler [reqRec "Hello"] (some exCtx)
        true = .ok o ∧
      o.outer = OuterResult.futureReturned (promiseAll o.recordOutcomes) ∧
      ∀ err data, o.outer ≠ OuterResult.callbackInvoked err data :=
  C10_paradigm_fixed_at_wrap "data, context" echoHandler [reqRec "Hello"]
    exCtx true (by decide) (by decide)

end ScatterGather
